import Mathlib

/-!
# Verification of the ChampSim-style simulator core

A shallow embedding of the cache module (`src/src/cache.cc`), the DRAM
channel (`src/src/dram_controller.cc`), the composite branch-predictor and
BTB models (`src/inc/ooo_cpu.h`) and the address-slice utilities
(`src/inc/address.h`), together with theorems settling the frozen claims
about them.

Machine integers (`uint64_t`) are modelled as `Nat`; wrap-around is made
explicit with `% 2 ^ 64` at the points where the source relies on unsigned
overflow.  External pluggable modules (prefetchers, replacement policies)
are out of scope per the specification and appear as function parameters.
Calls into the lower-level channel (`add_rq` / `add_pq`), whose body is not
part of the analysed sources, are represented by a boolean oracle giving
the success of the enqueue.
-/

namespace ChampSim

/-- Base-two logarithm (floor), fuel-driven so that it reduces in the kernel.
Modelled from the spec: `champsim::lg2` lives in `util/bits.h`, which is not
among the analysed sources; §4.3.3 uses it as "log2(NUM_SET)" with
power-of-two set counts. -/
def lg2F : Nat → Nat → Nat
  | 0, _ => 0
  | fuel + 1, n => if n ≤ 1 then 0 else lg2F fuel (n / 2) + 1

/-- Base-two logarithm entry point. -/
def lg2 (n : Nat) : Nat := lg2F n n

/-- The access types of `access_type` (enum in `champsim.h`). -/
inductive AccessType where
  | LOAD
  | RFO
  | PREFETCH
  | WRITE
  | TRANSLATION
deriving DecidableEq, Repr, Inhabited

/-- `std::set_union` on two (sorted) lists, as used for MSHR and DRAM
read-queue merges; fuel-driven merge so it reduces in the kernel. -/
def mergeUnionF : Nat → List Nat → List Nat → List Nat
  | 0, xs, ys => xs ++ ys
  | _ + 1, [], ys => ys
  | _ + 1, x :: xs, [] => x :: xs
  | fuel + 1, x :: xs, y :: ys =>
    if x < y then x :: mergeUnionF fuel xs (y :: ys)
    else if y < x then y :: mergeUnionF fuel (x :: xs) ys
    else x :: mergeUnionF fuel xs ys

/-- `std::set_union` of two lists into a fresh output range. -/
def mergeUnion (xs ys : List Nat) : List Nat :=
  mergeUnionF (xs.length + ys.length) xs ys

/-! ## Cache data model (`cache.h` / `cache.cc`) -/

/-- `CACHE::tag_lookup_type`: an in-flight tag check. -/
structure TagLookup where
  address : Nat
  v_address : Nat
  data : Nat
  ip : Nat
  instr_id : Nat
  pf_metadata : Nat
  cpu : Nat
  type : AccessType
  prefetch_from_this : Bool
  skip_fill : Bool
  is_translated : Bool
  instr_depend_on_me : List Nat
  to_return : List Nat
deriving DecidableEq, Repr, Inhabited

/-- `CACHE::mshr_type`: one miss-status holding register entry.
`event_cycle` defaults to the "not yet returned" sentinel
`std::numeric_limits<uint64_t>::max()` (spec §3.3). -/
structure MshrEntry where
  address : Nat
  v_address : Nat
  data : Nat
  ip : Nat
  instr_id : Nat
  pf_metadata : Nat
  cpu : Nat
  type : AccessType
  prefetch_from_this : Bool
  cycle_enqueued : Nat
  instr_depend_on_me : List Nat
  to_return : List Nat
  event_cycle : Nat
deriving DecidableEq, Repr, Inhabited

/-- `CACHE::mshr_type::mshr_type(const tag_lookup_type&, uint64_t)`. -/
def MshrEntry.ofTagLookup (req : TagLookup) (cycle : Nat) : MshrEntry :=
  { address := req.address
    v_address := req.v_address
    data := req.data
    ip := req.ip
    instr_id := req.instr_id
    pf_metadata := req.pf_metadata
    cpu := req.cpu
    type := req.type
    prefetch_from_this := req.prefetch_from_this
    cycle_enqueued := cycle
    instr_depend_on_me := req.instr_depend_on_me
    to_return := req.to_return
    event_cycle := 2 ^ 64 - 1 }

/-- `CACHE::BLOCK`: one cache block. -/
structure Block where
  valid : Bool
  dirty : Bool
  prefetch : Bool
  address : Nat
  v_address : Nat
  data : Nat
  pf_metadata : Nat
deriving DecidableEq, Repr, Inhabited

/-- `champsim::channel::response_type`. -/
structure CacheResponse where
  address : Nat
  v_address : Nat
  data : Nat
  pf_metadata : Nat
  instr_depend_on_me : List Nat
deriving DecidableEq, Repr, Inhabited

/-- `champsim::channel::request_type` (the fields `CACHE::handle_miss`
forwards to the lower level). -/
structure CacheRequest where
  address : Nat
  v_address : Nat
  data : Nat
  instr_id : Nat
  ip : Nat
  pf_metadata : Nat
  cpu : Nat
  type : AccessType
  response_requested : Bool
  is_translated : Bool
  instr_depend_on_me : List Nat
deriving DecidableEq, Repr, Inhabited

/-- The `CACHE` state touched by the embedded member functions: geometry
parameters, the block array, the MSHR list, the internal prefetch queue,
and the statistics the claims mention.  `hits`/`misses` mirror the
per-type, per-cpu counter arrays of `cache_stats`. -/
structure Cache where
  NUM_SET : Nat
  NUM_WAY : Nat
  OFFSET_BITS : Nat
  MSHR_SIZE : Nat
  PQ_SIZE : Nat
  prefetch_as_load : Bool
  virtual_prefetch : Bool
  match_offset_bits : Bool
  pref_activate_mask : List AccessType
  block : List Block
  MSHR : List MshrEntry
  internal_PQ : List TagLookup
  current_cycle : Nat
  cpu : Nat
  pf_requested : Nat
  pf_issued : Nat
  pf_useful : Nat
  pf_useless : Nat
  pf_fill : Nat
  hits : AccessType → Nat → Nat
  misses : AccessType → Nat → Nat

/-- Bump the per-type, per-cpu statistic counter (`sim_stats.{hits,misses}
.at(type).at(cpu)++`). -/
def bumpStat (f : AccessType → Nat → Nat) (t : AccessType) (c : Nat) :
    AccessType → Nat → Nat :=
  fun t' c' => if t' = t ∧ c' = c then f t' c' + 1 else f t' c'

/-- `CACHE::get_set_index`: `address.slice(lg2(NUM_SET)+OFFSET_BITS,
OFFSET_BITS)`, i.e. the `lg2 NUM_SET` bits above the offset. -/
def Cache.get_set_index (c : Cache) (address : Nat) : Nat :=
  (address >>> c.OFFSET_BITS) &&& (2 ^ lg2 c.NUM_SET - 1)

/-- The predicate of the `std::find_if` in `CACHE::try_hit`: a valid block
whose tag above `OFFSET_BITS` matches. -/
def blockMatches (off tagv : Nat) (x : Block) : Bool :=
  x.valid && (x.address >>> off == tagv)

/-- Replace the first element satisfying `p` by its image under `f`,
returning the updated list together with the original element
(`std::find_if` followed by a write through the iterator). -/
def updateFirst (p : α → Bool) (f : α → α) : List α → Option (List α × α)
  | [] => none
  | x :: xs =>
    if p x then some (f x :: xs, x)
    else match updateFirst p f xs with
         | some (xs', y) => some (x :: xs', y)
         | none => none

/-- The span of blocks forming the set of `address`
(`CACHE::get_set_span`). -/
def Cache.set_span (c : Cache) (address : Nat) : List Block :=
  ((c.block.drop (c.get_set_index address * c.NUM_WAY)).take c.NUM_WAY)

/-- The block `CACHE::try_hit` hits on, if any: the first valid block of
the set whose tag matches. -/
def Cache.lookupHit (c : Cache) (pkt : TagLookup) : Option Block :=
  (c.set_span pkt.address).find?
    (blockMatches c.OFFSET_BITS (pkt.address >>> c.OFFSET_BITS))

/-- `CACHE::should_activate_prefetcher`. -/
def Cache.should_activate_prefetcher (c : Cache) (pkt : TagLookup) : Bool :=
  !pkt.prefetch_from_this && c.pref_activate_mask.contains pkt.type

/-- The in-place mutation `try_hit` applies to the hit block: write the
dirty bit from the access type and clear the prefetch bit on a useful
prefetch. -/
def hitTransform (pkt : TagLookup) (b : Block) : Block :=
  let useful := b.prefetch && !pkt.prefetch_from_this
  { b with dirty := decide (pkt.type = AccessType.WRITE)
           prefetch := if useful then false else b.prefetch }

/-- `CACHE::try_hit`.  `prefOperate` stands for the pluggable
`impl_prefetcher_cache_operate` hook (argument order: base address, ip,
hit, useful_prefetch, type, metadata in).  Returns the hit flag, the new
cache state and the responses pushed (`to_return` targets paired with the
response). -/
def Cache.try_hit (c : Cache)
    (prefOperate : Nat → Nat → Bool → Bool → AccessType → Nat → Nat)
    (pkt : TagLookup) : Bool × Cache × List (List Nat × CacheResponse) :=
  let off := c.OFFSET_BITS
  let base := c.get_set_index pkt.address * c.NUM_WAY
  let span := (c.block.drop base).take c.NUM_WAY
  let found := updateFirst (blockMatches off (pkt.address >>> off)) (hitTransform pkt) span
  let hit := found.isSome
  let useful := match found with
                | some (_, b) => b.prefetch && !pkt.prefetch_from_this
                | none => false
  let pfBase := (if c.virtual_prefetch then pkt.v_address else pkt.address) >>>
                  (if c.match_offset_bits then 0 else off)
  let metadataThru :=
    if c.should_activate_prefetcher pkt then
      prefOperate pfBase pkt.ip hit useful pkt.type pkt.pf_metadata
    else pkt.pf_metadata
  match found with
  | none => (false, { c with cpu := pkt.cpu }, [])
  | some (span', b) =>
    (true,
     { c with
        cpu := pkt.cpu
        block := c.block.take base ++ span' ++ c.block.drop (base + c.NUM_WAY)
        hits := bumpStat c.hits pkt.type pkt.cpu
        pf_useful := if b.prefetch && !pkt.prefetch_from_this then c.pf_useful + 1
                     else c.pf_useful },
     [(pkt.to_return,
       { address := pkt.address
         v_address := pkt.v_address
         data := b.data
         pf_metadata := metadataThru
         instr_depend_on_me := pkt.instr_depend_on_me })])

/-- The index of the first element satisfying `p` (the distance that a
successful `std::find_if` has advanced from `begin`). -/
def findMatchIdx (p : α → Bool) : List α → Option Nat
  | [] => none
  | x :: xs => if p x then some 0 else (findMatchIdx p xs).map (· + 1)

/-- The index of the first MSHR entry whose block-aligned address matches
the packet (the `std::find_if` at the head of `CACHE::handle_miss`). -/
def Cache.mshrFindIdx (c : Cache) (pkt : TagLookup) : Option Nat :=
  findMatchIdx (fun m => m.address >>> c.OFFSET_BITS == pkt.address >>> c.OFFSET_BITS) c.MSHR

/-- The `request_type fwd_pkt` that `CACHE::handle_miss` builds for the
lower level: writes are upgraded to RFO, `response_requested` is false
exactly for a locally issued prefetch that skips the fill. -/
def Cache.mkFwdPkt (pkt : TagLookup) : CacheRequest :=
  { address := pkt.address
    v_address := pkt.v_address
    data := pkt.data
    instr_id := pkt.instr_id
    ip := pkt.ip
    pf_metadata := pkt.pf_metadata
    cpu := pkt.cpu
    type := if pkt.type = AccessType.WRITE then AccessType.RFO else pkt.type
    response_requested := (!pkt.prefetch_from_this || !pkt.skip_fill)
    is_translated := pkt.is_translated
    instr_depend_on_me := pkt.instr_depend_on_me }

/-- `CACHE::handle_miss`.  `lowerAccept` is the result of the call into the
lower level's `add_rq`/`add_pq` (that channel's body is outside the
analysed sources; per spec §3.2 an enqueue returns false on overflow and
is otherwise accepted unchanged).  The result carries the return value,
the new cache state, and the packet enqueued at the lower level (paired
with `send_to_rq`), if any. -/
def Cache.handle_miss (c : Cache) (lowerAccept : Bool) (pkt : TagLookup) :
    Bool × Cache × Option (Bool × CacheRequest) :=
  match c.mshrFindIdx pkt with
  | some i =>
    -- miss already inflight: merge, then possibly promote a prefetch
    let e := c.MSHR.getD i default
    let mergedInstr := mergeUnion e.instr_depend_on_me pkt.instr_depend_on_me
    let mergedRet := mergeUnion e.to_return pkt.to_return
    let promoted := e.type = AccessType.PREFETCH ∧ pkt.type ≠ AccessType.PREFETCH
    let e' :=
      if promoted then
        { MshrEntry.ofTagLookup pkt c.current_cycle with
            event_cycle := e.event_cycle
            to_return := mergedRet }
      else
        { e with instr_depend_on_me := mergedInstr, to_return := mergedRet }
    (true,
     { c with
        cpu := pkt.cpu
        MSHR := c.MSHR.set i e'
        pf_useful := if promoted ∧ e.prefetch_from_this then c.pf_useful + 1
                     else c.pf_useful
        misses := bumpStat c.misses pkt.type pkt.cpu },
     none)
  | none =>
    if c.MSHR.length = c.MSHR_SIZE then
      (false, { c with cpu := pkt.cpu }, none) -- not enough MSHR resource
    else
      let fwd := Cache.mkFwdPkt pkt
      let sendToRq := c.prefetch_as_load || !(pkt.type = AccessType.PREFETCH)
      if lowerAccept then
        (true,
         { c with
            cpu := pkt.cpu
            MSHR := if fwd.response_requested then
                      c.MSHR ++ [{ MshrEntry.ofTagLookup pkt c.current_cycle with
                                     pf_metadata := fwd.pf_metadata }]
                    else c.MSHR
            misses := bumpStat c.misses pkt.type pkt.cpu },
         some (sendToRq, fwd))
      else
        (false, { c with cpu := pkt.cpu }, none)

/-- `CACHE::prefetch_line(pf_addr, fill_this_level, prefetch_metadata)`. -/
def Cache.prefetch_line (c : Cache) (pf_addr : Nat) (fill_this_level : Bool)
    (prefetch_metadata : Nat) : Bool × Cache :=
  let c1 := { c with pf_requested := c.pf_requested + 1 }
  if c.PQ_SIZE ≤ c.internal_PQ.length then
    (false, c1)
  else
    let pkt : TagLookup :=
      { address := pf_addr
        v_address := if c.virtual_prefetch then pf_addr else 0
        data := 0
        ip := 0
        instr_id := 0
        pf_metadata := prefetch_metadata
        cpu := c.cpu
        type := AccessType.PREFETCH
        prefetch_from_this := true
        skip_fill := !fill_this_level
        is_translated := !c.virtual_prefetch
        instr_depend_on_me := []
        to_return := [] }
    (true, { c1 with internal_PQ := c1.internal_PQ ++ [pkt]
                     pf_issued := c1.pf_issued + 1 })

/-! ## Composite branch predictor and BTB (`ooo_cpu.h`) -/

/-- One branch-predictor module of `O3_CPU::branch_module_model`: its
private state and its `predict_branch(ip)` member, which may update that
state and yields a taken/not-taken verdict. -/
structure BranchModule where
  state : Nat
  predict : Nat → Nat → Bool × Nat
deriving Inhabited

/-- Run one predictor on `ip`, keeping its updated state. -/
def BranchModule.run (ip : Nat) (m : BranchModule) : BranchModule :=
  { m with state := (m.predict ip m.state).2 }

/-- `O3_CPU::branch_module_model::impl_predict_branch`: the comma fold
`(..., b.predict_branch(ip))` calls every module in composition order and
yields the last call's value (`none` for an empty composition). -/
def impl_predict_branch (mods : List BranchModule) (ip : Nat) :
    Option Bool × List BranchModule :=
  mods.foldl
    (fun acc m => ((some (m.predict ip m.state).1), acc.2 ++ [m.run ip]))
    (none, [])

/-- One BTB module of `O3_CPU::btb_module_model`: its private state and its
`btb_prediction(ip)` member returning a `(predicted target, hit)` pair. -/
structure BtbModule where
  state : Nat
  btb_prediction : Nat → Nat → (Nat × Bool) × Nat
deriving Inhabited

/-- Run one BTB module on `ip`, keeping its updated state. -/
def BtbModule.run (ip : Nat) (m : BtbModule) : BtbModule :=
  { m with state := (m.btb_prediction ip m.state).2 }

/-- `O3_CPU::btb_module_model::impl_btb_prediction`: the comma fold over
all BTB modules, yielding the last `(target, hit)` pair. -/
def impl_btb_prediction (mods : List BtbModule) (ip : Nat) :
    Option (Nat × Bool) × List BtbModule :=
  mods.foldl
    (fun acc m => ((some (m.btb_prediction ip m.state).1), acc.2 ++ [m.run ip]))
    (none, [])

/-! ## Address slices (`address.h`) -/

/-- `champsim::bitmask(up, low)`: the bits of positions `[low, up)`.
Modelled from the spec: the helper lives in `util/bits.h`, which is not
among the analysed sources; §3.1 describes slices as half-open bit ranges
`[lower, upper)`. -/
def bitmask (up : Nat) (low : Nat := 0) : Nat :=
  (2 ^ (up - low) - 1) <<< low

/-- `champsim::address_slice`: run-time bounds `[lower, upper)` and the
stored (shifted-down) integer value.  The compile-time-extent
specialisation carries the same data. -/
structure AddressSlice where
  upper : Nat
  lower : Nat
  value : Nat
deriving DecidableEq, Repr, Inhabited

/-- The constructor `address_slice(up, low, underlying_type val)`
(`address.h` line 183): store `val & bitmask(up-low)`. -/
def AddressSlice.ofInt (up low : Nat) (val : Nat) : AddressSlice :=
  { upper := up, lower := low, value := val &&& bitmask (up - low) }

/-- The converting constructor `address_slice(up, low, other_slice)`
(`address.h` line 176): realign the other slice's bits, mask to
`[low, up)`, and shift down. -/
def AddressSlice.ofSlice (up low : Nat) (other : AddressSlice) : AddressSlice :=
  { upper := up, lower := low
    value := ((other.value <<< other.lower) &&& bitmask up low) >>> low }

/-- The compile-time-extent converting constructor (`address.h` line 227),
which delegates to the masking value constructor (line 224). -/
def AddressSlice.ofSliceStatic (up low : Nat) (other : AddressSlice) : AddressSlice :=
  AddressSlice.ofInt up low
    (((other.value <<< other.lower) &&& bitmask up low) >>> low)

/-- `address_slice_impl::operator+=`: two's-complement add of the signed
delta on the 64-bit underlying value, then mask to the slice width. -/
def AddressSlice.addDelta (s : AddressSlice) (delta : Int) : AddressSlice :=
  { s with value := (((s.value : Int) + delta).emod (2 ^ 64)).toNat &&&
                      bitmask (s.upper - s.lower) }

/-- `address_slice_impl::operator-=`, defined as `operator+=(-delta)`. -/
def AddressSlice.subDelta (s : AddressSlice) (delta : Int) : AddressSlice :=
  s.addDelta (-delta)

/-! ## DRAM channel (`dram_controller.h` / `dram_controller.cc`) -/

/-- `DRAM_CHANNEL::request_type`: one slot's content in the channel's RQ or
WQ arrays. -/
structure DramReq where
  pf_metadata : Nat
  address : Nat
  v_address : Nat
  data : Nat
  event_cycle : Nat
  forward_checked : Bool
  scheduled : Bool
  instr_depend_on_me : List Nat
  to_return : List Nat
deriving DecidableEq, Repr, Inhabited

/-- `DRAM_CHANNEL::bank_request_type`: the per-rank×bank state.  `pkt`
records which queue slot the bank serves: `(inWQ, index)`. -/
structure BankRequest where
  valid : Bool
  row_buffer_hit : Bool
  need_refresh : Bool
  under_refresh : Bool
  open_row : Option Nat
  event_cycle : Nat
  pkt : Bool × Nat
deriving DecidableEq, Repr, Inhabited

/-- The `DRAM_CHANNEL` state the embedded member functions touch. -/
structure DramChannel where
  RQ : List (Option DramReq)
  WQ : List (Option DramReq)
  bank_request : List BankRequest
  active_request : Option Nat
  dbus_cycle_available : Nat
  write_mode : Bool
  current_cycle : Nat
  tCAS : Nat
  tRCD : Nat
  tRP : Nat
  DRAM_DBUS_TURN_AROUND_TIME : Nat

/-- Mark the queue slot a reset bank pointed at as unscheduled and ready
now (`it->pkt->value().scheduled = false; ... event_cycle = current_cycle`). -/
def unscheduleSlot (cycle : Nat) (q : List (Option DramReq)) (idx : Nat) :
    List (Option DramReq) :=
  q.set idx ((q.getD idx none).map
    (fun r => { r with scheduled := false, event_cycle := cycle }))

/-- The per-bank reset `swap_write_mode` applies to every valid,
non-active bank request: release the row unless it had already reached
`event_cycle − tCAS`, free the bank, and unschedule its packet. -/
def resetBankStep (cycle tCAS : Nat) (ch : DramChannel) (i : Nat) : DramChannel :=
  let b := ch.bank_request.getD i default
  if (some i ≠ ch.active_request) ∧ b.valid then
    let b' := { b with
                  open_row := if b.event_cycle < cycle + tCAS then none else b.open_row
                  valid := false }
    let ch' := { ch with bank_request := ch.bank_request.set i b' }
    if b.pkt.1 then { ch' with WQ := unscheduleSlot cycle ch'.WQ b.pkt.2 }
    else { ch' with RQ := unscheduleSlot cycle ch'.RQ b.pkt.2 }
  else ch

/-- `DRAM_CHANNEL::swap_write_mode`.  `HIGH_WM`/`LOW_WM` stand for the
configuration constants `DRAM_WRITE_HIGH_WM`/`DRAM_WRITE_LOW_WM`. -/
def DramChannel.swap_write_mode (HIGH_WM LOW_WM : Nat) (ch : DramChannel) :
    DramChannel :=
  let wq_occu := ch.WQ.countP (fun x => x.isSome)
  let rq_occu := ch.RQ.countP (fun x => x.isSome)
  if (¬ch.write_mode ∧ (HIGH_WM ≤ wq_occu ∨ (rq_occu = 0 ∧ 0 < wq_occu)))
      ∨ (ch.write_mode ∧ (wq_occu = 0 ∨ (0 < rq_occu ∧ wq_occu < LOW_WM))) then
    let ch1 := (List.range ch.bank_request.length).foldl
                 (resetBankStep ch.current_cycle ch.tCAS) ch
    let dbus := match ch.active_request with
                | some a => (ch1.bank_request.getD a default).event_cycle +
                              ch.DRAM_DBUS_TURN_AROUND_TIME
                | none => ch.current_cycle + ch.DRAM_DBUS_TURN_AROUND_TIME
    { ch1 with dbus_cycle_available := dbus, write_mode := !ch.write_mode }
  else ch

/-- Does this (optional) queue slot hold a request whose block-aligned
address matches `a`?  (`pkt.has_value() && (pkt->address >> offset) ==
(addr >> offset)`.) -/
def dramMatches (off a : Nat) : Option DramReq → Bool
  | none => false
  | some p => p.address >>> off == a >>> off

/-- The first write-queue entry whose block-aligned address matches `a`
(the `std::find_if` over `WQ` in `check_read_collision`). -/
def wqFindMatch (off a : Nat) (wq : List (Option DramReq)) : Option DramReq :=
  wq.findSome? (fun o =>
    match o with
    | some p => if p.address >>> off == a >>> off then some p else none
    | none => none)

/-- Absorb the later request `r`'s dependents into `q` by the two
`std::set_union` calls. -/
def mergeIntoReq (q r : DramReq) : DramReq :=
  { q with instr_depend_on_me := mergeUnion q.instr_depend_on_me r.instr_depend_on_me
           to_return := mergeUnion q.to_return r.to_return }

/-- Merge `r` into the queue slot at `j` (which the scan found to hold a
matching request). -/
def mergeAt (rq : List (Option DramReq)) (j : Nat) (r : DramReq) :
    List (Option DramReq) :=
  match rq.getD j none with
  | some q => rq.set j (some (mergeIntoReq q r))
  | none => rq

/-- The body of `check_read_collision` for the RQ slot at index `i`:
try the WQ forward, then the forward scan over earlier RQ slots, then the
backward scan over later RQ slots, else mark the slot checked.  Returns
the updated RQ and the responses pushed (pairs of a `to_return` target
list and the response). -/
def processRead (off : Nat) (wq : List (Option DramReq))
    (rq : List (Option DramReq)) (i : Nat) :
    List (Option DramReq) × List (List Nat × CacheResponse) :=
  match rq.getD i none with
  | none => (rq, [])
  | some r =>
    if r.forward_checked then (rq, [])
    else
      match wqFindMatch off r.address wq with
      | some w =>
        (rq.set i none,
         [(r.to_return,
           { address := r.address
             v_address := r.v_address
             data := w.data
             pf_metadata := r.pf_metadata
             instr_depend_on_me := r.instr_depend_on_me })])
      | none =>
        match findMatchIdx (dramMatches off r.address) (rq.take i) with
        | some j => ((mergeAt rq j r).set i none, [])
        | none =>
          match findMatchIdx (dramMatches off r.address) (rq.drop (i + 1)) with
          | some j0 => ((mergeAt rq (i + 1 + j0) r).set i none, [])
          | none => (rq.set i (some { r with forward_checked := true }), [])

/-- The loop of `check_read_collision`, iterating the slot indices in
order. -/
def crcLoop (off : Nat) (wq : List (Option DramReq)) :
    List Nat → List (Option DramReq) →
    List (Option DramReq) × List (List Nat × CacheResponse)
  | [], rq => (rq, [])
  | i :: rest, rq =>
    ((crcLoop off wq rest (processRead off wq rq i).1).1,
     (processRead off wq rq i).2 ++ (crcLoop off wq rest (processRead off wq rq i).1).2)

/-- `DRAM_CHANNEL::check_read_collision`, over the block-offset width, the
write queue and the read queue. -/
def check_read_collision (off : Nat) (wq rq : List (Option DramReq)) :
    List (Option DramReq) × List (List Nat × CacheResponse) :=
  crcLoop off wq (List.range rq.length) rq

/-! ## Helper lemmas -/

lemma and_bitmask_lt (a n : Nat) : a &&& bitmask n < 2 ^ n := by
  have hm : bitmask n < 2 ^ n := by
    simp only [bitmask, Nat.sub_zero, Nat.shiftLeft_zero]
    exact Nat.sub_lt (Nat.pos_pow_of_pos n (by norm_num)) (by norm_num)
  exact Nat.and_lt_two_pow a hm

lemma and_bitmask_shiftRight_lt (x up low : Nat) :
    (x &&& bitmask up low) >>> low < 2 ^ (up - low) := by
  have h1 : x &&& bitmask up low ≤ bitmask up low := Nat.and_le_right
  have h2 : (x &&& bitmask up low) >>> low ≤ bitmask up low >>> low := by
    simpa [Nat.shiftRight_eq_div_pow] using Nat.div_le_div_right (c := 2 ^ low) h1
  have h3 : bitmask up low >>> low = 2 ^ (up - low) - 1 := by
    rw [bitmask, Nat.shiftLeft_eq, Nat.shiftRight_eq_div_pow]
    exact Nat.mul_div_cancel _ (Nat.pos_pow_of_pos low (by norm_num))
  calc (x &&& bitmask up low) >>> low ≤ 2 ^ (up - low) - 1 := h3 ▸ h2
    _ < 2 ^ (up - low) := Nat.sub_lt (Nat.pos_pow_of_pos _ (by norm_num)) (by norm_num)

/-! ## C8: stored value of an address slice stays inside the slice width -/

/-- **C8.** For every `address_slice` with bounds `[lower, upper)`, the
stored integer never has bits set at or above position `upper - lower`
(i.e. it is `< 2 ^ (upper - lower)`): this holds after construction from
an integer (`address.h` lines 183/224), after construction from another
slice (lines 176 and 227), and is re-established by `operator+=` and
`operator-=` of any signed delta, which wrap inside the slice width. -/
theorem address_slice_value_in_width :
    (∀ up low val, (AddressSlice.ofInt up low val).value < 2 ^ (up - low)) ∧
    (∀ up low s, (AddressSlice.ofSlice up low s).value < 2 ^ (up - low)) ∧
    (∀ up low s, (AddressSlice.ofSliceStatic up low s).value < 2 ^ (up - low)) ∧
    (∀ (s : AddressSlice) (delta : Int),
       (s.addDelta delta).value < 2 ^ (s.upper - s.lower) ∧
       (s.addDelta delta).upper = s.upper ∧ (s.addDelta delta).lower = s.lower) ∧
    (∀ (s : AddressSlice) (delta : Int),
       (s.subDelta delta).value < 2 ^ (s.upper - s.lower) ∧
       (s.subDelta delta).upper = s.upper ∧ (s.subDelta delta).lower = s.lower) := by
  refine ⟨fun up low val => and_bitmask_lt _ _,
          fun up low s => and_bitmask_shiftRight_lt _ _ _,
          fun up low s => and_bitmask_lt _ _,
          fun s delta => ⟨and_bitmask_lt _ _, rfl, rfl⟩,
          fun s delta => ⟨and_bitmask_lt _ _, rfl, rfl⟩⟩

/-! ## C7: composite predictor — every module runs, last vote wins -/

lemma impl_predict_branch_foldl (ip : Nat) (l : List BranchModule)
    (m : BranchModule) (o : Option Bool) (done : List BranchModule) :
    (l ++ [m]).foldl
      (fun acc mm => ((some (mm.predict ip mm.state).1), acc.2 ++ [mm.run ip]))
      (o, done) =
    (some (m.predict ip m.state).1, done ++ (l ++ [m]).map (BranchModule.run ip)) := by
  induction l generalizing o done with
  | nil => simp [List.foldl]
  | cons x xs ih => simp [List.foldl, ih, List.append_assoc]

lemma impl_btb_prediction_foldl (ip : Nat) (l : List BtbModule)
    (m : BtbModule) (o : Option (Nat × Bool)) (done : List BtbModule) :
    (l ++ [m]).foldl
      (fun acc mm => ((some (mm.btb_prediction ip mm.state).1), acc.2 ++ [mm.run ip]))
      (o, done) =
    (some (m.btb_prediction ip m.state).1, done ++ (l ++ [m]).map (BtbModule.run ip)) := by
  induction l generalizing o done with
  | nil => simp [List.foldl]
  | cons x xs ih => simp [List.foldl, ih, List.append_assoc]

/-- **C7.** A non-empty branch-predictor composition (written
`ms ++ [m]`, so `m` is the last module): `impl_predict_branch` runs every
module in composition order (each module's state is updated by its own
`predict_branch` call) and the returned verdict is the last module's,
all earlier verdicts being discarded; likewise a multi-BTB composition's
`impl_btb_prediction` returns only the last module's `(target, hit)`
pair. -/
theorem composite_predictor_last_vote (ms : List BranchModule)
    (m : BranchModule) (ts : List BtbModule) (t : BtbModule) (ip : Nat) :
    impl_predict_branch (ms ++ [m]) ip =
      (some (m.predict ip m.state).1, (ms ++ [m]).map (BranchModule.run ip)) ∧
    impl_btb_prediction (ts ++ [t]) ip =
      (some (t.btb_prediction ip t.state).1, (ts ++ [t]).map (BtbModule.run ip)) := by
  constructor
  · simpa [impl_predict_branch] using impl_predict_branch_foldl ip ms m none []
  · simpa [impl_btb_prediction] using impl_btb_prediction_foldl ip ts t none []

/-! ## C4: write-mode swap condition of the DRAM channel -/

/-- **C4.** `DRAM_CHANNEL::swap_write_mode` toggles the channel into write
mode exactly when it is not in write mode and (`wq_occu ≥
DRAM_WRITE_HIGH_WM`, or `rq_occu = 0` and `wq_occu > 0`), and toggles it
out of write mode exactly when it is in write mode and (`wq_occu = 0`, or
`rq_occu > 0` and `wq_occu < DRAM_WRITE_LOW_WM`); in all other cases
`write_mode` is unchanged. -/
lemma swap_write_mode_write_mode (H L : Nat) (ch : DramChannel) :
    (ch.swap_write_mode H L).write_mode =
      if (¬ch.write_mode ∧ (H ≤ ch.WQ.countP (fun x => x.isSome) ∨
            (ch.RQ.countP (fun x => x.isSome) = 0 ∧
             0 < ch.WQ.countP (fun x => x.isSome))))
          ∨ (ch.write_mode ∧ (ch.WQ.countP (fun x => x.isSome) = 0 ∨
               (0 < ch.RQ.countP (fun x => x.isSome) ∧
                ch.WQ.countP (fun x => x.isSome) < L))) then
        !ch.write_mode
      else ch.write_mode := by
  by_cases hc : (¬ch.write_mode ∧ (H ≤ ch.WQ.countP (fun x => x.isSome) ∨
      (ch.RQ.countP (fun x => x.isSome) = 0 ∧
       0 < ch.WQ.countP (fun x => x.isSome))))
      ∨ (ch.write_mode ∧ (ch.WQ.countP (fun x => x.isSome) = 0 ∨
           (0 < ch.RQ.countP (fun x => x.isSome) ∧
            ch.WQ.countP (fun x => x.isSome) < L)))
  · simp only [DramChannel.swap_write_mode]
    rw [if_pos hc, if_pos hc]
  · simp only [DramChannel.swap_write_mode]
    rw [if_neg hc, if_neg hc]

theorem dram_swap_write_mode_toggle (H L : Nat) (ch : DramChannel) :
    (ch.write_mode = false →
      (((ch.swap_write_mode H L).write_mode = true) ↔
        (H ≤ ch.WQ.countP (fun x => x.isSome) ∨
         (ch.RQ.countP (fun x => x.isSome) = 0 ∧
          0 < ch.WQ.countP (fun x => x.isSome))))) ∧
    (ch.write_mode = true →
      (((ch.swap_write_mode H L).write_mode = false) ↔
        (ch.WQ.countP (fun x => x.isSome) = 0 ∨
         (0 < ch.RQ.countP (fun x => x.isSome) ∧
          ch.WQ.countP (fun x => x.isSome) < L)))) := by
  constructor
  · intro hw
    have hcond : ((¬ch.write_mode ∧ (H ≤ ch.WQ.countP (fun x => x.isSome) ∨
        (ch.RQ.countP (fun x => x.isSome) = 0 ∧
         0 < ch.WQ.countP (fun x => x.isSome))))
        ∨ (ch.write_mode ∧ (ch.WQ.countP (fun x => x.isSome) = 0 ∨
             (0 < ch.RQ.countP (fun x => x.isSome) ∧
              ch.WQ.countP (fun x => x.isSome) < L)))) ↔
        (H ≤ ch.WQ.countP (fun x => x.isSome) ∨
         (ch.RQ.countP (fun x => x.isSome) = 0 ∧
          0 < ch.WQ.countP (fun x => x.isSome))) := by
      rw [hw]; simp
    rw [swap_write_mode_write_mode]
    by_cases hA : (H ≤ ch.WQ.countP (fun x => x.isSome) ∨
        (ch.RQ.countP (fun x => x.isSome) = 0 ∧
         0 < ch.WQ.countP (fun x => x.isSome)))
    · rw [if_pos (hcond.mpr hA), hw]
      simpa using hA
    · rw [if_neg (fun h => hA (hcond.mp h)), hw]
      simpa using hA
  · intro hw
    have hcond : ((¬ch.write_mode ∧ (H ≤ ch.WQ.countP (fun x => x.isSome) ∨
        (ch.RQ.countP (fun x => x.isSome) = 0 ∧
         0 < ch.WQ.countP (fun x => x.isSome))))
        ∨ (ch.write_mode ∧ (ch.WQ.countP (fun x => x.isSome) = 0 ∨
             (0 < ch.RQ.countP (fun x => x.isSome) ∧
              ch.WQ.countP (fun x => x.isSome) < L)))) ↔
        (ch.WQ.countP (fun x => x.isSome) = 0 ∨
         (0 < ch.RQ.countP (fun x => x.isSome) ∧
          ch.WQ.countP (fun x => x.isSome) < L)) := by
      rw [hw]; simp
    rw [swap_write_mode_write_mode]
    by_cases hB : (ch.WQ.countP (fun x => x.isSome) = 0 ∨
        (0 < ch.RQ.countP (fun x => x.isSome) ∧
         ch.WQ.countP (fun x => x.isSome) < L))
    · rw [if_pos (hcond.mpr hB), hw]
      simpa using hB
    · rw [if_neg (fun h => hB (hcond.mp h)), hw]
      simpa using hB

/-- A sample DRAM request used by concrete instances. -/
def sampleDramReq : DramReq :=
  { pf_metadata := 0, address := 0x1000, v_address := 0x1000, data := 7
    event_cycle := 0, forward_checked := false, scheduled := false
    instr_depend_on_me := [], to_return := [0] }

/-- A concrete DRAM channel: one pending write, empty read queue, not in
write mode. -/
def sampleDramChannel : DramChannel :=
  { RQ := [none], WQ := [some sampleDramReq], bank_request := []
    active_request := none, dbus_cycle_available := 0, write_mode := false
    current_cycle := 10, tCAS := 2, tRCD := 3, tRP := 4
    DRAM_DBUS_TURN_AROUND_TIME := 5 }

theorem dram_swap_write_mode_toggle_witness :
    (sampleDramChannel.swap_write_mode 1 1).write_mode = true :=
  ((dram_swap_write_mode_toggle 1 1 sampleDramChannel).1 rfl).mpr
    (Or.inl (by decide))

/-! ## Lemmas about `updateFirst` -/

lemma updateFirst_length {p : α → Bool} {f : α → α} {l l' : List α} {b : α}
    (h : updateFirst p f l = some (l', b)) : l'.length = l.length := by
  induction l generalizing l' with
  | nil => simp [updateFirst] at h
  | cons x xs ih =>
    rw [updateFirst] at h
    by_cases hx : p x
    · rw [if_pos hx] at h
      cases h
      simp
    · rw [if_neg hx] at h
      cases he : updateFirst p f xs with
      | none => rw [he] at h; cases h
      | some v =>
        obtain ⟨xs', y⟩ := v
        rw [he] at h
        cases h
        simpa using ih he

lemma updateFirst_find? {p : α → Bool} {f : α → α} {l l' : List α} {b : α}
    (h : updateFirst p f l = some (l', b)) : l.find? p = some b := by
  induction l generalizing l' with
  | nil => simp [updateFirst] at h
  | cons x xs ih =>
    rw [updateFirst] at h
    by_cases hx : p x
    · rw [if_pos hx] at h
      cases h
      exact List.find?_cons_of_pos _ hx
    · rw [if_neg hx] at h
      cases he : updateFirst p f xs with
      | none => rw [he] at h; cases h
      | some v =>
        obtain ⟨xs', y⟩ := v
        rw [he] at h
        cases h
        rw [List.find?_cons_of_neg _ hx]
        exact ih he

lemma updateFirst_image_find? {p : α → Bool} {f : α → α}
    (hp : ∀ x, p (f x) = p x) {l l' : List α} {b : α}
    (h : updateFirst p f l = some (l', b)) : l'.find? p = some (f b) := by
  induction l generalizing l' with
  | nil => simp [updateFirst] at h
  | cons x xs ih =>
    rw [updateFirst] at h
    by_cases hx : p x
    · rw [if_pos hx] at h
      cases h
      exact List.find?_cons_of_pos _ (by rw [hp]; exact hx)
    · rw [if_neg hx] at h
      cases he : updateFirst p f xs with
      | none => rw [he] at h; cases h
      | some v =>
        obtain ⟨xs', y⟩ := v
        rw [he] at h
        cases h
        rw [List.find?_cons_of_neg _ hx]
        exact ih he

lemma updateFirst_eq_none_iff {p : α → Bool} {f : α → α} {l : List α} :
    updateFirst p f l = none ↔ l.find? p = none := by
  induction l with
  | nil => simp [updateFirst]
  | cons x xs ih =>
    rw [updateFirst]
    by_cases hx : p x
    · rw [if_pos hx, List.find?_cons_of_pos _ hx]
      simp
    · rw [if_neg hx, List.find?_cons_of_neg _ hx, ← ih]
      cases he : updateFirst p f xs with
      | none => simp
      | some v => obtain ⟨xs', y⟩ := v; simp

/-- Putting an equal-length span back between the untouched prefix and
suffix reproduces exactly that span when the set is carved out again. -/
lemma drop_take_reassemble {l : List α} {base W : Nat} {span' : List α}
    (hlen : span'.length = ((l.drop base).take W).length) (hbase : base ≤ l.length) :
    ((l.take base ++ span' ++ l.drop (base + W)).drop base).take W = span' := by
  have h1 : (l.take base).length = base := by
    simp [List.length_take, Nat.min_eq_left hbase]
  rw [List.append_assoc, List.drop_left' h1]
  have hsl : span'.length = min W (l.length - base) := by
    rw [hlen]; simp [List.length_take, List.length_drop]
  rcases Nat.le_total W (l.length - base) with hle | hle
  · have : span'.length = W := by rw [hsl, Nat.min_eq_left hle]
    exact List.take_left' this
  · have hnil : l.drop (base + W) = [] := by
      rw [List.drop_eq_nil_iff]
      omega
    have : span'.length ≤ W := by rw [hsl]; omega
    rw [hnil, List.append_nil]
    exact List.take_of_length_le this

lemma blockMatches_hitTransform (off tagv : Nat) (pkt : TagLookup) (b : Block) :
    blockMatches off tagv (hitTransform pkt b) = blockMatches off tagv b := by
  simp [blockMatches, hitTransform]

/-- Characterisation of `CACHE::try_hit` on a hit: it returns true, bumps
`pf_useful` exactly on a useful prefetch, and the hit block is afterwards
found in the set in its `hitTransform`ed shape. -/
lemma try_hit_hit_char {c : Cache}
    {f : Nat → Nat → Bool → Bool → AccessType → Nat → Nat}
    {pkt : TagLookup} {b : Block} (hlook : c.lookupHit pkt = some b) :
    (c.try_hit f pkt).1 = true ∧
    (c.try_hit f pkt).2.1.pf_useful =
      (if b.prefetch && !pkt.prefetch_from_this then c.pf_useful + 1
       else c.pf_useful) ∧
    ((c.try_hit f pkt).2.1).lookupHit pkt = some (hitTransform pkt b) := by
  rw [Cache.lookupHit] at hlook
  cases hfound : updateFirst
      (blockMatches c.OFFSET_BITS (pkt.address >>> c.OFFSET_BITS))
      (hitTransform pkt) (c.set_span pkt.address) with
  | none =>
    rw [updateFirst_eq_none_iff] at hfound
    rw [hfound] at hlook
    cases hlook
  | some v =>
    obtain ⟨span', b'⟩ := v
    have hb : b' = b := by
      have := updateFirst_find? hfound
      rw [this] at hlook
      cases hlook
      rfl
    subst hb
    have hbase : c.get_set_index pkt.address * c.NUM_WAY ≤ c.block.length := by
      by_contra hgt
      have : c.block.drop (c.get_set_index pkt.address * c.NUM_WAY) = [] := by
        rw [List.drop_eq_nil_iff]
        omega
      rw [Cache.set_span, this] at hfound
      simp [updateFirst] at hfound
    have hev : c.try_hit f pkt =
        (true,
         { c with
            cpu := pkt.cpu
            block := c.block.take (c.get_set_index pkt.address * c.NUM_WAY) ++
                       span' ++
                       c.block.drop (c.get_set_index pkt.address * c.NUM_WAY + c.NUM_WAY)
            hits := bumpStat c.hits pkt.type pkt.cpu
            pf_useful := if b'.prefetch && !pkt.prefetch_from_this then c.pf_useful + 1
                         else c.pf_useful },
         [(pkt.to_return,
           { address := pkt.address
             v_address := pkt.v_address
             data := b'.data
             pf_metadata :=
               if c.should_activate_prefetcher pkt then
                 f ((if c.virtual_prefetch then pkt.v_address else pkt.address) >>>
                         (if c.match_offset_bits then 0 else c.OFFSET_BITS))
                   pkt.ip true (b'.prefetch && !pkt.prefetch_from_this) pkt.type pkt.pf_metadata
               else pkt.pf_metadata
             instr_depend_on_me := pkt.instr_depend_on_me })]) := by
      rw [Cache.try_hit]
      rw [show ((c.block.drop (c.get_set_index pkt.address * c.NUM_WAY)).take c.NUM_WAY) =
            c.set_span pkt.address from rfl, hfound]
      rfl
    refine ⟨by rw [hev], by rw [hev], ?_⟩
    rw [hev, Cache.lookupHit, Cache.set_span]
    have hspan : ({ c with
            cpu := pkt.cpu
            block := c.block.take (c.get_set_index pkt.address * c.NUM_WAY) ++
                       span' ++
                       c.block.drop (c.get_set_index pkt.address * c.NUM_WAY + c.NUM_WAY)
            hits := bumpStat c.hits pkt.type pkt.cpu
            pf_useful := if b'.prefetch && !pkt.prefetch_from_this then c.pf_useful + 1
                         else c.pf_useful } : Cache).get_set_index pkt.address =
          c.get_set_index pkt.address := rfl
    rw [hspan]
    rw [drop_take_reassemble (updateFirst_length hfound) hbase]
    exact updateFirst_image_find? (blockMatches_hitTransform _ _ pkt) hfound

/-- Characterisation of `CACHE::try_hit` on a miss: no state change beyond
the `cpu` bookkeeping member, no responses, returns false. -/
lemma try_hit_miss_char {c : Cache}
    {f : Nat → Nat → Bool → Bool → AccessType → Nat → Nat}
    {pkt : TagLookup} (hlook : c.lookupHit pkt = none) :
    c.try_hit f pkt = (false, { c with cpu := pkt.cpu }, []) := by
  rw [Cache.lookupHit] at hlook
  have hfound : updateFirst
      (blockMatches c.OFFSET_BITS (pkt.address >>> c.OFFSET_BITS))
      (hitTransform pkt) (c.set_span pkt.address) = none :=
    updateFirst_eq_none_iff.mpr hlook
  rw [Cache.try_hit]
  rw [show ((c.block.drop (c.get_set_index pkt.address * c.NUM_WAY)).take c.NUM_WAY) =
        c.set_span pkt.address from rfl, hfound]

/-! ## C1: useful-prefetch accounting in `try_hit` -/

/-- **C1.** For every tag check: if the access is not a locally issued
prefetch (the code's reading of "non-prefetch access") and it hits a block
whose prefetch bit is set, `try_hit` increments `pf_useful` by exactly one
and clears that block's prefetch bit; if the access misses, or the hit
block's prefetch bit was clear, `pf_useful` is unchanged by `try_hit`. -/
theorem cache_try_hit_useful_prefetch (c : Cache)
    (pfop : Nat → Nat → Bool → Bool → AccessType → Nat → Nat)
    (pkt : TagLookup) :
    (∀ b, pkt.prefetch_from_this = false → c.lookupHit pkt = some b →
        b.prefetch = true →
        (c.try_hit pfop pkt).2.1.pf_useful = c.pf_useful + 1 ∧
        ∃ b', ((c.try_hit pfop pkt).2.1).lookupHit pkt = some b' ∧
              b'.prefetch = false) ∧
    (c.lookupHit pkt = none →
        (c.try_hit pfop pkt).1 = false ∧
        (c.try_hit pfop pkt).2.1.pf_useful = c.pf_useful) ∧
    (∀ b, c.lookupHit pkt = some b → b.prefetch = false →
        (c.try_hit pfop pkt).2.1.pf_useful = c.pf_useful) := by
  refine ⟨fun b hpf hlook hbpf => ?_, fun hlook => ?_, fun b hlook hbpf => ?_⟩
  · obtain ⟨h1, h2, h3⟩ := try_hit_hit_char (f := pfop) hlook
    refine ⟨?_, hitTransform pkt b, h3, ?_⟩
    · rw [h2, hbpf, hpf]
      simp
    · simp [hitTransform, hbpf, hpf]
  · rw [try_hit_miss_char (f := pfop) hlook]
    exact ⟨rfl, rfl⟩
  · obtain ⟨h1, h2, h3⟩ := try_hit_hit_char (f := pfop) hlook
    rw [h2, hbpf]
    simp

/-- A prefetched, clean, valid block at address `0x40`. -/
def samplePrefetchedBlock : Block :=
  { valid := true, dirty := false, prefetch := true
    address := 0x40, v_address := 0x40, data := 3, pf_metadata := 0 }

/-- A one-set, one-way cache holding `samplePrefetchedBlock`. -/
def sampleCache : Cache :=
  { NUM_SET := 1, NUM_WAY := 1, OFFSET_BITS := 6, MSHR_SIZE := 4, PQ_SIZE := 4
    prefetch_as_load := false, virtual_prefetch := false, match_offset_bits := false
    pref_activate_mask := [AccessType.LOAD, AccessType.PREFETCH]
    block := [samplePrefetchedBlock], MSHR := [], internal_PQ := []
    current_cycle := 0, cpu := 0, pf_requested := 0, pf_issued := 0
    pf_useful := 0, pf_useless := 0, pf_fill := 0
    hits := fun _ _ => 0, misses := fun _ _ => 0 }

/-- A demand load to the block held by `sampleCache`. -/
def sampleLoadPkt : TagLookup :=
  { address := 0x40, v_address := 0x40, data := 0, ip := 0, instr_id := 1
    pf_metadata := 0, cpu := 0, type := AccessType.LOAD
    prefetch_from_this := false, skip_fill := false, is_translated := true
    instr_depend_on_me := [], to_return := [0] }

theorem cache_try_hit_useful_prefetch_witness :
    (sampleCache.try_hit (fun _ _ _ _ _ m => m) sampleLoadPkt).2.1.pf_useful =
      sampleCache.pf_useful + 1 ∧
    ∃ b', ((sampleCache.try_hit (fun _ _ _ _ _ m => m) sampleLoadPkt).2.1).lookupHit
            sampleLoadPkt = some b' ∧ b'.prefetch = false :=
  (cache_try_hit_useful_prefetch sampleCache (fun _ _ _ _ _ m => m) sampleLoadPkt).1
    samplePrefetchedBlock rfl (by decide) rfl

/-! ## C9: every hit rewrites the dirty bit from the access type -/

/-- **C9.** On every cache hit, `try_hit` assigns the hit block's dirty
flag to `type == WRITE`; consequently, after any hit whose type is not
WRITE the block's dirty flag is false, even if it was true before the
access. -/
theorem cache_try_hit_clobbers_dirty (c : Cache)
    (pfop : Nat → Nat → Bool → Bool → AccessType → Nat → Nat)
    (pkt : TagLookup) :
    ∀ b, c.lookupHit pkt = some b →
      (c.try_hit pfop pkt).1 = true ∧
      ∃ b', ((c.try_hit pfop pkt).2.1).lookupHit pkt = some b' ∧
            b'.dirty = decide (pkt.type = AccessType.WRITE) ∧
            (pkt.type ≠ AccessType.WRITE → b'.dirty = false) := by
  intro b hlook
  obtain ⟨h1, _, h3⟩ := try_hit_hit_char (f := pfop) hlook
  refine ⟨h1, hitTransform pkt b, h3, by simp [hitTransform], fun hne => ?_⟩
  simp [hitTransform, hne]

/-- A valid, dirty, non-prefetch block at address `0x80`. -/
def sampleDirtyBlock : Block :=
  { valid := true, dirty := true, prefetch := false
    address := 0x80, v_address := 0x80, data := 9, pf_metadata := 0 }

/-- A one-set, one-way cache holding `sampleDirtyBlock`. -/
def sampleDirtyCache : Cache :=
  { sampleCache with block := [sampleDirtyBlock] }

/-- A demand load to the dirty block held by `sampleDirtyCache`. -/
def sampleDirtyLoadPkt : TagLookup :=
  { sampleLoadPkt with address := 0x80, v_address := 0x80 }

theorem cache_try_hit_clobbers_dirty_witness :
    (sampleDirtyCache.try_hit (fun _ _ _ _ _ m => m) sampleDirtyLoadPkt).1 = true ∧
    ∃ b', ((sampleDirtyCache.try_hit (fun _ _ _ _ _ m => m) sampleDirtyLoadPkt).2.1).lookupHit
            sampleDirtyLoadPkt = some b' ∧
          b'.dirty = decide (sampleDirtyLoadPkt.type = AccessType.WRITE) ∧
          (sampleDirtyLoadPkt.type ≠ AccessType.WRITE → b'.dirty = false) :=
  cache_try_hit_clobbers_dirty sampleDirtyCache (fun _ _ _ _ _ m => m)
    sampleDirtyLoadPkt sampleDirtyBlock (by decide)

/-! ## C2: queue-full failure semantics -/

/-- **C2 (amended).** When `MSHR_SIZE = 0` (so the MSHR list is empty, by
the occupancy invariant) every call to `handle_miss` returns false and
changes nothing but the `cpu` bookkeeping member; `prefetch_line` returns
false whenever the internal PQ holds `PQ_SIZE` or more entries, and on
that failure changes no state other than the `pf_requested` statistic,
which it increments on every call, rejected ones included. -/
theorem cache_queue_full_failures (c : Cache) :
    (∀ (la : Bool) (pkt : TagLookup), c.MSHR_SIZE = 0 → c.MSHR = [] →
       c.handle_miss la pkt = (false, { c with cpu := pkt.cpu }, none)) ∧
    (∀ (a : Nat) (f : Bool) (m : Nat), c.PQ_SIZE ≤ c.internal_PQ.length →
       c.prefetch_line a f m =
         (false, { c with pf_requested := c.pf_requested + 1 })) := by
  constructor
  · intro la pkt hsz hempty
    have hfind : c.mshrFindIdx pkt = none := by
      rw [Cache.mshrFindIdx, hempty]
      rfl
    simp only [Cache.handle_miss, hfind]
    rw [if_pos (by rw [hempty, hsz]; rfl)]
  · intro a f m hfull
    simp only [Cache.prefetch_line]
    rw [if_pos hfull]

/-- A cache with no MSHR resources and a zero-sized internal prefetch
queue. -/
def sampleStarvedCache : Cache :=
  { sampleCache with MSHR_SIZE := 0, PQ_SIZE := 0 }

theorem cache_queue_full_failures_witness :
    sampleStarvedCache.handle_miss true sampleLoadPkt =
      (false, { sampleStarvedCache with cpu := sampleLoadPkt.cpu }, none) ∧
    sampleStarvedCache.prefetch_line 0x80 true 0 =
      (false, { sampleStarvedCache with
                  pf_requested := sampleStarvedCache.pf_requested + 1 }) :=
  ⟨(cache_queue_full_failures sampleStarvedCache).1 true sampleLoadPkt rfl rfl,
   (cache_queue_full_failures sampleStarvedCache).2 0x80 true 0 (by decide)⟩

/-- **C2, counterexample to the claim as stated.** A `prefetch_line` call
that fails on a full PQ does leave an observable state change: the
`pf_requested` statistic is incremented even though the call returns
false. -/
theorem cache_queue_full_failures_cex :
    (sampleStarvedCache.prefetch_line 0x40 true 0).1 = false ∧
    (sampleStarvedCache.prefetch_line 0x40 true 0).2.pf_requested ≠
      sampleStarvedCache.pf_requested := by
  constructor
  · rfl
  · decide

/-! ## C3: promotion of a prefetch MSHR entry by a demand access -/

/-- **C3 (amended).** In `handle_miss`, when an MSHR entry with the same
block-aligned address already exists, its type is PREFETCH, and the
incoming access is not a prefetch, the entry is promoted: its fields are
replaced from the incoming access while its prior `event_cycle` and its
merged `to_return` set are preserved across the replacement; `pf_useful`
is incremented only when the existing entry was a locally issued prefetch
(`prefetch_from_this`), not for every promotion. -/
theorem mshr_prefetch_promotion (c : Cache) (la : Bool) (pkt : TagLookup)
    (i : Nat) (e : MshrEntry)
    (hfind : c.mshrFindIdx pkt = some i)
    (he : c.MSHR.getD i default = e)
    (htype : e.type = AccessType.PREFETCH)
    (hpt : pkt.type ≠ AccessType.PREFETCH) :
    (c.handle_miss la pkt).1 = true ∧
    (c.handle_miss la pkt).2.1.MSHR =
      c.MSHR.set i
        { MshrEntry.ofTagLookup pkt c.current_cycle with
            event_cycle := e.event_cycle
            to_return := mergeUnion e.to_return pkt.to_return } ∧
    (c.handle_miss la pkt).2.1.pf_useful =
      (if e.prefetch_from_this then c.pf_useful + 1 else c.pf_useful) := by
  refine ⟨?_, ?_, ?_⟩
  · simp only [Cache.handle_miss, hfind]
  · simp only [Cache.handle_miss, hfind]
    rw [he]
    simp [htype, hpt]
  · simp only [Cache.handle_miss, hfind]
    rw [he]
    simp [htype, hpt]

/-- An MSHR entry for a prefetch that came from an upper level (not
locally issued). -/
def sampleForeignPrefetchMshr : MshrEntry :=
  { address := 0x40, v_address := 0x40, data := 0, ip := 0, instr_id := 7
    pf_metadata := 0, cpu := 0, type := AccessType.PREFETCH
    prefetch_from_this := false, cycle_enqueued := 2
    instr_depend_on_me := [4], to_return := [1], event_cycle := 99 }

/-- A cache whose only MSHR entry is `sampleForeignPrefetchMshr`. -/
def sampleForeignPrefetchCache : Cache :=
  { sampleCache with block := [], MSHR := [sampleForeignPrefetchMshr] }

/-- **C3, counterexample to the claim as stated.** A demand load promoting
an MSHR entry whose prefetch was not locally issued does not increment
`pf_useful` (the claim predicts an unconditional increment on every
promotion). -/
theorem mshr_prefetch_promotion_cex :
    (sampleForeignPrefetchCache.handle_miss true sampleLoadPkt).2.1.pf_useful ≠
      sampleForeignPrefetchCache.pf_useful + 1 := by
  decide

/-- The same MSHR entry, but recorded as a locally issued prefetch. -/
def sampleLocalPrefetchMshr : MshrEntry :=
  { sampleForeignPrefetchMshr with prefetch_from_this := true }

/-- A cache whose only MSHR entry is `sampleLocalPrefetchMshr`. -/
def sampleLocalPrefetchCache : Cache :=
  { sampleCache with block := [], MSHR := [sampleLocalPrefetchMshr] }

theorem mshr_prefetch_promotion_witness :
    (sampleLocalPrefetchCache.handle_miss true sampleLoadPkt).1 = true ∧
    (sampleLocalPrefetchCache.handle_miss true sampleLoadPkt).2.1.MSHR =
      sampleLocalPrefetchCache.MSHR.set 0
        { MshrEntry.ofTagLookup sampleLoadPkt sampleLocalPrefetchCache.current_cycle with
            event_cycle := sampleLocalPrefetchMshr.event_cycle
            to_return := mergeUnion sampleLocalPrefetchMshr.to_return
                           sampleLoadPkt.to_return } ∧
    (sampleLocalPrefetchCache.handle_miss true sampleLoadPkt).2.1.pf_useful =
      (if sampleLocalPrefetchMshr.prefetch_from_this then
         sampleLocalPrefetchCache.pf_useful + 1
       else sampleLocalPrefetchCache.pf_useful) :=
  mshr_prefetch_promotion sampleLocalPrefetchCache true sampleLoadPkt 0
    sampleLocalPrefetchMshr (by decide) rfl rfl (by decide)

/-! ## C6: a repeated prefetch never counts as useful -/

/-- **C6.** A locally issued prefetch (the shape every `prefetch_line`
packet has: `prefetch_from_this` with type PREFETCH) never increments
`pf_useful`: not when it hits the block filled by the first prefetch in
`try_hit`, not when it merges into the first prefetch's pending MSHR
entry in `handle_miss`, and `prefetch_line` itself never touches
`pf_useful`. -/
theorem duplicate_prefetch_never_useful (c : Cache)
    (pfop : Nat → Nat → Bool → Bool → AccessType → Nat → Nat)
    (pkt : TagLookup) (hlocal : pkt.prefetch_from_this = true) :
    (c.try_hit pfop pkt).2.1.pf_useful = c.pf_useful ∧
    (pkt.type = AccessType.PREFETCH →
       ∀ la : Bool, (c.handle_miss la pkt).2.1.pf_useful = c.pf_useful) ∧
    (∀ (a : Nat) (f : Bool) (m : Nat),
       (c.prefetch_line a f m).2.pf_useful = c.pf_useful) := by
  refine ⟨?_, ?_, ?_⟩
  · cases hl : c.lookupHit pkt with
    | none => rw [try_hit_miss_char (f := pfop) hl]
    | some b =>
      obtain ⟨_, h2, _⟩ := try_hit_hit_char (f := pfop) hl
      rw [h2, hlocal]
      simp
  · intro hPF la
    cases hf : c.mshrFindIdx pkt with
    | some i =>
      simp only [Cache.handle_miss, hf]
      simp [hPF]
    | none =>
      simp only [Cache.handle_miss, hf]
      by_cases hfull : c.MSHR.length = c.MSHR_SIZE
      · simp [hfull]
      · cases la <;> simp [hfull]
  · intro a f m
    by_cases hq : c.PQ_SIZE ≤ c.internal_PQ.length <;>
      simp [Cache.prefetch_line, hq]

/-- The duplicate of the prefetch that filled `samplePrefetchedBlock`:
a locally issued prefetch to the same address. -/
def sampleDupPrefetchPkt : TagLookup :=
  { sampleLoadPkt with type := AccessType.PREFETCH, prefetch_from_this := true }

theorem duplicate_prefetch_never_useful_witness :
    (sampleCache.try_hit (fun _ _ _ _ _ m => m) sampleDupPrefetchPkt).2.1.pf_useful =
      sampleCache.pf_useful ∧
    (sampleDupPrefetchPkt.type = AccessType.PREFETCH →
       ∀ la : Bool,
         (sampleCache.handle_miss la sampleDupPrefetchPkt).2.1.pf_useful =
           sampleCache.pf_useful) ∧
    (∀ (a : Nat) (f : Bool) (m : Nat),
       (sampleCache.prefetch_line a f m).2.pf_useful = sampleCache.pf_useful) :=
  duplicate_prefetch_never_useful sampleCache (fun _ _ _ _ _ m => m)
    sampleDupPrefetchPkt rfl

/-! ## C10: a skip-fill local prefetch allocates no MSHR entry -/

/-- **C10.** In `handle_miss` with no matching MSHR entry and a free MSHR
slot, a locally issued prefetch whose `skip_fill` flag is set is forwarded
to the lower level with `response_requested = false`; when the lower level
accepts it the call returns true and bumps the miss counter, but the MSHR
list is unchanged — no entry is allocated, so the prefetch can never be
filled into this level. -/
theorem skip_fill_prefetch_no_mshr (c : Cache) (pkt : TagLookup)
    (hnom : c.mshrFindIdx pkt = none)
    (hnf : c.MSHR.length ≠ c.MSHR_SIZE)
    (hlocal : pkt.prefetch_from_this = true)
    (hskip : pkt.skip_fill = true) :
    (c.handle_miss true pkt).1 = true ∧
    (∃ q fwd, (c.handle_miss true pkt).2.2 = some (q, fwd) ∧
              fwd.response_requested = false) ∧
    (c.handle_miss true pkt).2.1.MSHR = c.MSHR ∧
    (c.handle_miss true pkt).2.1.misses pkt.type pkt.cpu =
      c.misses pkt.type pkt.cpu + 1 := by
  have hrr : (Cache.mkFwdPkt pkt).response_requested = false := by
    simp [Cache.mkFwdPkt, hlocal, hskip]
  refine ⟨?_, ⟨c.prefetch_as_load || !(pkt.type = AccessType.PREFETCH),
               Cache.mkFwdPkt pkt, ?_, hrr⟩, ?_, ?_⟩ <;>
    · simp only [Cache.handle_miss, hnom]
      rw [if_neg hnf]
      simp [hrr, bumpStat, Cache.mkFwdPkt, hlocal, hskip]

/-- A skip-fill local prefetch to a block absent from `sampleCache`'s
MSHR. -/
def sampleSkipFillPkt : TagLookup :=
  { sampleDupPrefetchPkt with address := 0x1000, v_address := 0x1000
                              skip_fill := true }

theorem skip_fill_prefetch_no_mshr_witness :
    (sampleCache.handle_miss true sampleSkipFillPkt).1 = true ∧
    (∃ q fwd, (sampleCache.handle_miss true sampleSkipFillPkt).2.2 = some (q, fwd) ∧
              fwd.response_requested = false) ∧
    (sampleCache.handle_miss true sampleSkipFillPkt).2.1.MSHR = sampleCache.MSHR ∧
    (sampleCache.handle_miss true sampleSkipFillPkt).2.1.misses
        sampleSkipFillPkt.type sampleSkipFillPkt.cpu =
      sampleCache.misses sampleSkipFillPkt.type sampleSkipFillPkt.cpu + 1 :=
  skip_fill_prefetch_no_mshr sampleCache sampleSkipFillPkt (by decide) (by decide)
    rfl rfl

/-! ## C5: read-collision handling in the DRAM channel -/

lemma getD_of_getElem? {l : List (Option β)} {j : Nat} {o : Option β}
    (h : l[j]? = some o) : l.getD j none = o := by
  rw [List.getD_eq_getElem?_getD, h]
  rfl

lemma lt_length_of_getElem? {l : List α} {j : Nat} {a : α}
    (h : l[j]? = some a) : j < l.length :=
  (List.getElem?_eq_some.mp h).1

lemma getElem?_of_getD {l : List (Option β)} {j : Nat} {b : β}
    (h : l.getD j none = some b) : l[j]? = some (some b) := by
  rw [List.getD_eq_getElem?_getD] at h
  cases hj : l[j]? with
  | none => rw [hj] at h; cases h
  | some o => rw [hj] at h; cases o with
    | none => cases h
    | some b' => cases h; rfl

lemma findMatchIdx_some {p : α → Bool} {l : List α} {j : Nat}
    (h : findMatchIdx p l = some j) : ∃ a, l[j]? = some a ∧ p a = true := by
  induction l generalizing j with
  | nil => simp [findMatchIdx] at h
  | cons x xs ih =>
    rw [findMatchIdx] at h
    by_cases hx : p x
    · rw [if_pos hx] at h
      cases h
      exact ⟨x, by simp, hx⟩
    · rw [if_neg hx] at h
      cases hf : findMatchIdx p xs with
      | none => rw [hf] at h; cases h
      | some j' =>
        rw [hf] at h
        cases h
        obtain ⟨a, ha, hpa⟩ := ih hf
        exact ⟨a, by simpa using ha, hpa⟩

lemma findMatchIdx_eq_some_of {p : α → Bool} {l : List α} {j : Nat} {a : α}
    (hj : l[j]? = some a) (hpa : p a = true)
    (hbefore : ∀ (m : Nat) (b : α), m < j → l[m]? = some b → p b = false) :
    findMatchIdx p l = some j := by
  induction l generalizing j with
  | nil => simp at hj
  | cons x xs ih =>
    cases j with
    | zero =>
      simp only [List.getElem?_cons_zero] at hj
      cases hj
      rw [findMatchIdx, if_pos hpa]
    | succ j' =>
      have hx : p x = false := hbefore 0 x (Nat.succ_pos _) (by simp)
      rw [findMatchIdx, if_neg (by simp [hx])]
      rw [ih (by simpa using hj)
          (fun m b hm hb => hbefore (m + 1) b (by omega) (by simpa using hb))]
      rfl

lemma findMatchIdx_eq_none_of {p : α → Bool} {l : List α}
    (h : ∀ (m : Nat) (b : α), l[m]? = some b → p b = false) :
    findMatchIdx p l = none := by
  induction l with
  | nil => rfl
  | cons x xs ih =>
    rw [findMatchIdx, if_neg (by simp [h 0 x (by simp)])]
    rw [ih (fun m b hb => h (m + 1) b (by simpa using hb))]
    rfl

lemma dramMatches_none (off a : Nat) : dramMatches off a none = false := rfl

lemma dramMatches_some (off a : Nat) (p : DramReq) :
    dramMatches off a (some p) = (p.address >>> off == a >>> off) := rfl

lemma wqFindMatch_eq_none {off a : Nat} {wq : List (Option DramReq)}
    (h : ∀ o ∈ wq, dramMatches off a o = false) :
    wqFindMatch off a wq = none := by
  rw [wqFindMatch, List.findSome?_eq_none_iff]
  intro o ho
  cases o with
  | none => rfl
  | some p =>
    have := h (some p) ho
    rw [dramMatches_some] at this
    simp [this]

lemma wqFindMatch_ne_none {off a : Nat} {wq : List (Option DramReq)} {w : DramReq}
    (hmem : some w ∈ wq) (hm : w.address >>> off = a >>> off) :
    wqFindMatch off a wq ≠ none := by
  intro hnone
  rw [wqFindMatch, List.findSome?_eq_none_iff] at hnone
  have := hnone (some w) hmem
  simp [hm] at this

lemma wqFindMatch_congr {off a b : Nat} (wq : List (Option DramReq))
    (h : a >>> off = b >>> off) :
    wqFindMatch off a wq = wqFindMatch off b wq := by
  rw [wqFindMatch, wqFindMatch]
  congr 1
  funext o
  cases o with
  | none => rfl
  | some p => simp [h]

lemma mergeAt_getElem?_ne {rq : List (Option DramReq)} {t : Nat} {r : DramReq}
    {i : Nat} (h : t ≠ i) : (mergeAt rq t r)[i]? = rq[i]? := by
  rw [mergeAt]
  cases rq.getD t none with
  | none => rfl
  | some q => exact List.getElem?_set_ne h

lemma mergeAt_length (rq : List (Option DramReq)) (t : Nat) (r : DramReq) :
    (mergeAt rq t r).length = rq.length := by
  rw [mergeAt]
  cases rq.getD t none with
  | none => rfl
  | some q => exact List.length_set ..

lemma processRead_length (off : Nat) (wq rq : List (Option DramReq)) (j : Nat) :
    (processRead off wq rq j).1.length = rq.length := by
  rw [processRead]
  cases rq.getD j none with
  | none => rfl
  | some r =>
    by_cases hfc : r.forward_checked
    · simp [hfc]
    · simp only [hfc]
      cases wqFindMatch off r.address wq with
      | some w => simp [List.length_set]
      | none =>
        cases findMatchIdx (dramMatches off r.address) (rq.take j) with
        | some t => simp [List.length_set, mergeAt_length]
        | none =>
          cases findMatchIdx (dramMatches off r.address) (rq.drop (j + 1)) with
          | some t0 => simp [List.length_set, mergeAt_length]
          | none => simp [List.length_set]

lemma crcLoop_length (off : Nat) (wq : List (Option DramReq)) (is : List Nat)
    (rq : List (Option DramReq)) :
    (crcLoop off wq is rq).1.length = rq.length := by
  induction is generalizing rq with
  | nil => rfl
  | cons j rest ih => rw [crcLoop, ih, processRead_length]

lemma crcLoop_append (off : Nat) (wq : List (Option DramReq))
    (l1 l2 : List Nat) (rq : List (Option DramReq)) :
    crcLoop off wq (l1 ++ l2) rq =
      ((crcLoop off wq l2 (crcLoop off wq l1 rq).1).1,
       (crcLoop off wq l1 rq).2 ++ (crcLoop off wq l2 (crcLoop off wq l1 rq).1).2) := by
  induction l1 generalizing rq with
  | nil => simp [crcLoop]
  | cons j rest ih => simp [crcLoop, ih]

lemma range_split {n i : Nat} (h : i < n) :
    List.range n =
      (List.range i ++ [i]) ++ ((List.range (n - (i + 1))).map ((i + 1) + ·)) := by
  have hn : (i + 1) + (n - (i + 1)) = n := by omega
  calc List.range n = List.range ((i + 1) + (n - (i + 1))) := by rw [hn]
    _ = List.range (i + 1) ++ (List.range (n - (i + 1))).map ((i + 1) + ·) :=
        List.range_add _ _
    _ = (List.range i ++ [i]) ++ (List.range (n - (i + 1))).map ((i + 1) + ·) := by
        rw [show List.range (i + 1) = List.range i ++ [i] from by
          simpa using List.range_succ (n := i)]

/-- Case analysis of `processRead`: a slot is either left alone (empty or
already checked), satisfied from the write queue, merged into another
matching slot, or marked checked. -/
lemma processRead_shape (off : Nat) (wq rq : List (Option DramReq)) (j : Nat) :
    (processRead off wq rq j = (rq, [])) ∨
    (∃ rj w, rq.getD j none = some rj ∧ rj.forward_checked = false ∧
       wqFindMatch off rj.address wq = some w ∧
       processRead off wq rq j =
         (rq.set j none,
          [(rj.to_return, { address := rj.address, v_address := rj.v_address
                            data := w.data, pf_metadata := rj.pf_metadata
                            instr_depend_on_me := rj.instr_depend_on_me })])) ∨
    (∃ rj t p, rq.getD j none = some rj ∧ rj.forward_checked = false ∧
       wqFindMatch off rj.address wq = none ∧
       t ≠ j ∧ rq[t]? = some (some p) ∧
       (p.address >>> off == rj.address >>> off) = true ∧
       processRead off wq rq j =
         ((rq.set t (some (mergeIntoReq p rj))).set j none, [])) ∨
    (∃ rj, rq.getD j none = some rj ∧ rj.forward_checked = false ∧
       wqFindMatch off rj.address wq = none ∧
       processRead off wq rq j =
         (rq.set j (some { rj with forward_checked := true }), [])) := by
  cases hgd : rq.getD j none with
  | none =>
    left
    simp only [processRead]
    rw [hgd]
  | some rj =>
    by_cases hfc : rj.forward_checked = true
    · left
      simp only [processRead]
      rw [hgd]
      simp [hfc]
    · have hfc' : rj.forward_checked = false := by simpa using hfc
      cases hwq : wqFindMatch off rj.address wq with
      | some w =>
        right; left
        refine ⟨rj, w, rfl, hfc', hwq, ?_⟩
        simp only [processRead]
        rw [hgd]
        simp [hfc', hwq]
      | none =>
        cases hfw : findMatchIdx (dramMatches off rj.address) (rq.take j) with
        | some t =>
          right; right; left
          obtain ⟨a, hta, hpa⟩ := findMatchIdx_some hfw
          have htj : t < j := by
            have := lt_length_of_getElem? hta
            simp only [List.length_take] at this
            omega
          have hta' : rq[t]? = some a := by
            rw [List.getElem?_take, if_pos htj] at hta
            exact hta
          cases a with
          | none => rw [dramMatches_none] at hpa; cases hpa
          | some p =>
            refine ⟨rj, t, p, rfl, hfc', hwq, by omega, hta', hpa, ?_⟩
            have hmerge : mergeAt rq t rj = rq.set t (some (mergeIntoReq p rj)) := by
              rw [mergeAt, getD_of_getElem? hta']
            simp only [processRead]
            rw [hgd]
            simp [hfc', hwq, hfw, hmerge]
        | none =>
          cases hbw : findMatchIdx (dramMatches off rj.address) (rq.drop (j + 1)) with
          | some t0 =>
            right; right; left
            obtain ⟨a, hta, hpa⟩ := findMatchIdx_some hbw
            have hta' : rq[j + 1 + t0]? = some a := by
              rw [List.getElem?_drop] at hta
              exact hta
            cases a with
            | none => rw [dramMatches_none] at hpa; cases hpa
            | some p =>
              refine ⟨rj, j + 1 + t0, p, rfl, hfc', hwq, by omega, hta', hpa, ?_⟩
              have hmerge : mergeAt rq (j + 1 + t0) rj =
                  rq.set (j + 1 + t0) (some (mergeIntoReq p rj)) := by
                rw [mergeAt, getD_of_getElem? hta']
              simp only [processRead]
              rw [hgd]
              simp [hfc', hwq, hfw, hbw, hmerge]
          | none =>
            right; right; right
            refine ⟨rj, rfl, hfc', hwq, ?_⟩
            simp only [processRead]
            rw [hgd]
            simp [hfc', hwq, hfw, hbw]

/-- An emptied RQ slot stays empty through every later iteration of the
collision loop. -/
lemma processRead_preserves_cleared {off : Nat} {wq rq : List (Option DramReq)}
    {i j : Nat} (h : rq[i]? = some none) :
    (processRead off wq rq j).1[i]? = some none := by
  have hgdi : rq.getD i none = none := getD_of_getElem? h
  rcases processRead_shape off wq rq j with heq |
    ⟨rj, w, hgd, hfc, hwq, heq⟩ | ⟨rj, t, p, hgd, hfc, hwq, htj, htp, hm, heq⟩ |
    ⟨rj, hgd, hfc, hwq, heq⟩ <;> rw [heq]
  · exact h
  · have hji : j ≠ i := fun he => by rw [he, hgdi] at hgd; cases hgd
    rw [List.getElem?_set_ne hji]
    exact h
  · have hji : j ≠ i := fun he => by rw [he, hgdi] at hgd; cases hgd
    have hti : t ≠ i := by
      intro he
      rw [he, h] at htp
      cases htp
    rw [List.getElem?_set_ne hji, List.getElem?_set_ne hti]
    exact h
  · have hji : j ≠ i := fun he => by rw [he, hgdi] at hgd; cases hgd
    rw [List.getElem?_set_ne hji]
    exact h

/-- An RQ slot whose block address matches the write queue is untouched by
the processing of any other slot (a matching slot can never become a merge
target, because any request matching it would itself have hit the write
queue first). -/
lemma processRead_preserves_wq_matched {off : Nat} {wq rq : List (Option DramReq)}
    {i j : Nat} (hne : j ≠ i) {r : DramReq} (hi : rq[i]? = some (some r))
    (hwqi : wqFindMatch off r.address wq ≠ none) :
    (processRead off wq rq j).1[i]? = some (some r) := by
  rcases processRead_shape off wq rq j with heq |
    ⟨rj, w, hgd, hfc, hwq, heq⟩ | ⟨rj, t, p, hgd, hfc, hwq, htj, htp, hm, heq⟩ |
    ⟨rj, hgd, hfc, hwq, heq⟩ <;> rw [heq]
  · exact hi
  · rw [List.getElem?_set_ne hne]
    exact hi
  · have hti : t ≠ i := by
      intro he
      rw [he, hi] at htp
      cases htp
      have hshift : r.address >>> off = rj.address >>> off := by
        simpa using hm
      rw [wqFindMatch_congr wq hshift] at hwqi
      exact hwqi hwq
    rw [List.getElem?_set_ne hne, List.getElem?_set_ne hti]
    exact hi
  · rw [List.getElem?_set_ne hne]
    exact hi

/-- Slot update helpers on `getD`. -/
lemma getD_set_self {l : List (Option β)} {j : Nat} {v : Option β}
    (hj : j < l.length) : (l.set j v).getD j none = v :=
  getD_of_getElem? (List.getElem?_set_eq_of_lt _ hj)

lemma getD_set_ne {l : List (Option β)} {j m : Nat} {v : Option β}
    (h : j ≠ m) : (l.set j v).getD m none = l.getD m none := by
  rw [List.getD_eq_getElem?_getD, List.getD_eq_getElem?_getD,
    List.getElem?_set_ne h]

/-- Processing any slot other than the protected pair `{i, k}` changes
neither of them and creates no new slot matching the block address `A`,
provided every slot outside the pair fails to match `A`. -/
lemma processRead_step_protected {off A : Nat} {W rq : List (Option DramReq)}
    {j i k : Nat} (hji : j ≠ i) (hjk : j ≠ k)
    (hmi : ∀ p : DramReq, rq[i]? = some (some p) → p.address >>> off = A >>> off)
    (hmk : ∃ qv : DramReq, rq[k]? = some (some qv) ∧ qv.address >>> off = A >>> off)
    (huniq : ∀ m, m ≠ i → m ≠ k → dramMatches off A (rq.getD m none) = false) :
    (processRead off W rq j).1[i]? = rq[i]? ∧
    (processRead off W rq j).1[k]? = rq[k]? ∧
    (∀ m, m ≠ i → m ≠ k →
       dramMatches off A ((processRead off W rq j).1.getD m none) = false) := by
  obtain ⟨qv, hkv, hqvm⟩ := hmk
  rcases processRead_shape off W rq j with heq |
    ⟨rj, w, hgd, hfc, hwq, heq⟩ | ⟨rj, t, p, hgd, hfc, hwq, htj, htp, hm, heq⟩ |
    ⟨rj, hgd, hfc, hwq, heq⟩ <;> rw [heq]
  · exact ⟨rfl, rfl, huniq⟩
  · -- slot j satisfied from the WQ and cleared
    have hjlen : j < rq.length := lt_length_of_getElem? (getElem?_of_getD hgd)
    refine ⟨List.getElem?_set_ne hji, List.getElem?_set_ne hjk, fun m hmi' hmk' => ?_⟩
    by_cases hmj : m = j
    · subst hmj
      rw [getD_set_self hjlen]
      rfl
    · rw [getD_set_ne (fun he => hmj he.symm)]
      exact huniq m hmi' hmk'
  · -- slot j merged into the matching slot t and cleared
    have hjlen : j < rq.length := lt_length_of_getElem? (getElem?_of_getD hgd)
    have htlen : t < rq.length := lt_length_of_getElem? htp
    have hpm : p.address >>> off = rj.address >>> off := by simpa using hm
    have hti : t ≠ i := by
      intro he
      rw [he] at htp
      have hpA : p.address >>> off = A >>> off := hmi p htp
      have hrjA : dramMatches off A (rq.getD j none) = true := by
        rw [hgd, dramMatches_some]
        simp [← hpm, hpA]
      rw [huniq j hji hjk] at hrjA
      cases hrjA
    have htk : t ≠ k := by
      intro he
      rw [he, hkv] at htp
      cases htp
      have hrjA : dramMatches off A (rq.getD j none) = true := by
        rw [hgd, dramMatches_some]
        simp [← hpm, hqvm]
      rw [huniq j hji hjk] at hrjA
      cases hrjA
    refine ⟨?_, ?_, fun m hmi' hmk' => ?_⟩
    · rw [List.getElem?_set_ne hji, List.getElem?_set_ne hti]
    · rw [List.getElem?_set_ne hjk, List.getElem?_set_ne htk]
    · by_cases hmj : m = j
      · subst hmj
        rw [getD_set_self (by rw [List.length_set]; exact hjlen)]
        rfl
      · rw [getD_set_ne (fun he => hmj he.symm)]
        by_cases hmt : m = t
        · subst hmt
          rw [getD_set_self htlen, dramMatches_some]
          have : (mergeIntoReq p rj).address = p.address := rfl
          rw [this]
          have h0 := huniq m hmi' hmk'
          rw [getD_of_getElem? htp, dramMatches_some] at h0
          exact h0
        · rw [getD_set_ne (fun he => hmt he.symm)]
          exact huniq m hmi' hmk'
  · -- slot j marked forward-checked
    have hjlen : j < rq.length := lt_length_of_getElem? (getElem?_of_getD hgd)
    refine ⟨List.getElem?_set_ne hji, List.getElem?_set_ne hjk, fun m hmi' hmk' => ?_⟩
    by_cases hmj : m = j
    · subst hmj
      rw [getD_set_self hjlen, dramMatches_some]
      have h0 := huniq m hmi' hmk'
      rw [hgd, dramMatches_some] at h0
      exact h0
    · rw [getD_set_ne (fun he => hmj he.symm)]
      exact huniq m hmi' hmk'

lemma processRead_checked_noop {off : Nat} {wq rq : List (Option DramReq)}
    {k : Nat} {q : DramReq} (h : rq.getD k none = some q)
    (hc : q.forward_checked = true) :
    processRead off wq rq k = (rq, []) := by
  simp only [processRead]
  rw [h]
  simp [hc]

lemma processRead_wq_hit {off : Nat} {wq rq : List (Option DramReq)} {i : Nat}
    {r w : DramReq} (hi : rq.getD i none = some r)
    (hfc : r.forward_checked = false)
    (hw : wqFindMatch off r.address wq = some w) :
    processRead off wq rq i =
      (rq.set i none,
       [(r.to_return, { address := r.address, v_address := r.v_address
                        data := w.data, pf_metadata := r.pf_metadata
                        instr_depend_on_me := r.instr_depend_on_me })]) := by
  simp only [processRead]
  rw [hi]
  simp [hfc, hw]

lemma processRead_merge_fwd {off : Nat} {wq rq : List (Option DramReq)}
    {i k : Nat} {r q : DramReq} (hi : rq.getD i none = some r)
    (hfc : r.forward_checked = false)
    (hnw : wqFindMatch off r.address wq = none)
    (hfw : findMatchIdx (dramMatches off r.address) (rq.take i) = some k)
    (hk : rq.getD k none = some q) :
    processRead off wq rq i =
      ((rq.set k (some (mergeIntoReq q r))).set i none, []) := by
  have hmerge : mergeAt rq k r = rq.set k (some (mergeIntoReq q r)) := by
    rw [mergeAt, hk]
  simp only [processRead]
  rw [hi]
  simp [hfc, hnw, hfw, hmerge]

lemma crcLoop_preserves_cleared {off : Nat} {wq : List (Option DramReq)}
    {is : List Nat} {rq : List (Option DramReq)} {i : Nat}
    (h : rq[i]? = some none) :
    (crcLoop off wq is rq).1[i]? = some none := by
  induction is generalizing rq with
  | nil => exact h
  | cons j rest ih =>
    simp only [crcLoop]
    exact ih (processRead_preserves_cleared h)

lemma crcLoop_preserves_wq_matched {off : Nat} {wq : List (Option DramReq)}
    {is : List Nat} {rq : List (Option DramReq)} {i : Nat} {r : DramReq}
    (hne : ∀ j ∈ is, j ≠ i) (hi : rq[i]? = some (some r))
    (hwqi : wqFindMatch off r.address wq ≠ none) :
    (crcLoop off wq is rq).1[i]? = some (some r) := by
  induction is generalizing rq with
  | nil => exact hi
  | cons j rest ih =>
    simp only [crcLoop]
    exact ih (fun j' hj' => hne j' (List.mem_cons_of_mem _ hj'))
      (processRead_preserves_wq_matched (hne j (List.mem_cons_self _ _)) hi hwqi)

/-- Invariant of the collision loop before the newer entry `i` is
processed: the unchecked entry at `i`, the checked matching entry at `k`,
and the absence of other matching slots are all preserved. -/
lemma crcLoop_phase1 {off : Nat} {W : List (Option DramReq)} {l : List Nat}
    {rq : List (Option DramReq)} {i k : Nat} {r q : DramReq}
    (his : ∀ j ∈ l, j ≠ i)
    (hi : rq[i]? = some (some r))
    (hk : rq[k]? = some (some q))
    (hqc : q.forward_checked = true)
    (hqm : q.address >>> off = r.address >>> off)
    (huniq : ∀ m, m ≠ i → m ≠ k →
       dramMatches off r.address (rq.getD m none) = false) :
    (crcLoop off W l rq).1[i]? = some (some r) ∧
    (crcLoop off W l rq).1[k]? = some (some q) ∧
    (∀ m, m ≠ i → m ≠ k →
       dramMatches off r.address ((crcLoop off W l rq).1.getD m none) = false) := by
  induction l generalizing rq with
  | nil => exact ⟨hi, hk, huniq⟩
  | cons j rest ih =>
    simp only [crcLoop]
    by_cases hjk : j = k
    · subst hjk
      rw [processRead_checked_noop (getD_of_getElem? hk) hqc]
      exact ih (fun j' hj' => his j' (List.mem_cons_of_mem _ hj')) hi hk huniq
    · have hji : j ≠ i := his j (List.mem_cons_self _ _)
      have step := processRead_step_protected (W := W) (A := r.address) hji hjk
        (fun p hp => by
          rw [hi] at hp
          injection hp with h1
          injection h1 with h2
          rw [← h2])
        ⟨q, hk, hqm⟩ huniq
      exact ih (fun j' hj' => his j' (List.mem_cons_of_mem _ hj'))
        (by rw [step.1]; exact hi) (by rw [step.2.1]; exact hk) step.2.2

/-- Invariant of the collision loop after the merge: the absorbed slot
stays empty and the absorbing slot keeps its merged content. -/
lemma crcLoop_phase3 {off A : Nat} {W : List (Option DramReq)} {l : List Nat}
    {rq : List (Option DramReq)} {i k : Nat} {v : DramReq}
    (his : ∀ j ∈ l, j ≠ i ∧ j ≠ k)
    (hi : rq[i]? = some none)
    (hk : rq[k]? = some (some v))
    (hvm : v.address >>> off = A >>> off)
    (huniq : ∀ m, m ≠ i → m ≠ k → dramMatches off A (rq.getD m none) = false) :
    (crcLoop off W l rq).1[k]? = some (some v) := by
  induction l generalizing rq with
  | nil => exact hk
  | cons j rest ih =>
    simp only [crcLoop]
    have hj := his j (List.mem_cons_self _ _)
    have step := processRead_step_protected (W := W) (A := A) hj.1 hj.2
      (fun p hp => by
        rw [hi] at hp
        injection hp with h1
        cases h1)
      ⟨v, hk, hvm⟩ huniq
    exact ih (fun j' hj' => his j' (List.mem_cons_of_mem _ hj'))
      (by rw [step.1]; exact hi) (by rw [step.2.1]; exact hk) step.2.2

lemma crcLoop_singleton (off : Nat) (wq : List (Option DramReq)) (i : Nat)
    (x : List (Option DramReq)) :
    crcLoop off wq [i] x = processRead off wq x i := by
  simp [crcLoop]

/-- **C5 (amended).** In `DRAM_CHANNEL::check_read_collision`: (1) every
not-yet-checked RQ entry whose block-aligned address equals some WQ
entry's address is satisfied immediately — a response carrying the first
matching WQ entry's data is pushed onto each of its `to_return` queues —
and its slot is cleared without reaching a DRAM bank; (2) an RQ entry that
matches no WQ entry but matches an older RQ entry that has already been
forward-checked (and no other RQ slot) has its `instr_depend_on_me` and
`to_return` merged into that older entry and its slot is cleared.  (When
both matching entries are still unchecked, the code instead merges the
older entry into the newer one — see the counterexample.) -/
theorem dram_check_read_collision (off : Nat) (wq rq : List (Option DramReq)) :
    (∀ (i : Nat) (r w : DramReq),
       rq[i]? = some (some r) → r.forward_checked = false →
       some w ∈ wq → w.address >>> off = r.address >>> off →
       (check_read_collision off wq rq).1[i]? = some none ∧
       ∃ w', wqFindMatch off r.address wq = some w' ∧
         (r.to_return,
          ({ address := r.address, v_address := r.v_address, data := w'.data
             pf_metadata := r.pf_metadata
             instr_depend_on_me := r.instr_depend_on_me } : CacheResponse)) ∈
           (check_read_collision off wq rq).2) ∧
    (∀ (i k : Nat) (r q : DramReq),
       rq[i]? = some (some r) → r.forward_checked = false →
       (∀ o ∈ wq, dramMatches off r.address o = false) →
       k < i → rq[k]? = some (some q) → q.forward_checked = true →
       q.address >>> off = r.address >>> off →
       (∀ m, m ≠ i → m ≠ k →
          dramMatches off r.address (rq.getD m none) = false) →
       (check_read_collision off wq rq).1[i]? = some none ∧
       (check_read_collision off wq rq).1[k]? =
         some (some (mergeIntoReq q r))) := by
  constructor
  · intro i r w hi hfc hwmem hwm
    have hilen : i < rq.length := lt_length_of_getElem? hi
    have hwne := wqFindMatch_ne_none hwmem hwm
    obtain ⟨w', hw'⟩ : ∃ w', wqFindMatch off r.address wq = some w' := by
      cases hval : wqFindMatch off r.address wq with
      | none => exact absurd hval hwne
      | some x => exact ⟨x, rfl⟩
    rw [check_read_collision, range_split hilen, crcLoop_append, crcLoop_append,
      crcLoop_singleton]
    have hpre : (crcLoop off wq (List.range i) rq).1[i]? = some (some r) :=
      crcLoop_preserves_wq_matched
        (fun j hj => Nat.ne_of_lt (List.mem_range.mp hj)) hi hwne
    have hstep := processRead_wq_hit (getD_of_getElem? hpre) hfc hw'
    rw [hstep]
    have hlen1 : (crcLoop off wq (List.range i) rq).1.length = rq.length :=
      crcLoop_length off wq _ rq
    have hcleared : ((crcLoop off wq (List.range i) rq).1.set i none)[i]? =
        some none := by
      rw [List.getElem?_set_eq_of_lt]
      omega
    refine ⟨crcLoop_preserves_cleared hcleared, w', hw', ?_⟩
    apply List.mem_append.mpr
    refine Or.inl (List.mem_append.mpr (Or.inr ?_))
    exact List.mem_singleton.mpr rfl
  · intro i k r q hi hfc hnw hki hk hqc hqm huniq
    have hilen : i < rq.length := lt_length_of_getElem? hi
    have hklen : k < rq.length := lt_length_of_getElem? hk
    have hik : i ≠ k := by omega
    rw [check_read_collision, range_split hilen, crcLoop_append, crcLoop_append,
      crcLoop_singleton]
    obtain ⟨h1i, h1k, h1u⟩ :=
      crcLoop_phase1 (W := wq) (l := List.range i)
        (fun j hj => Nat.ne_of_lt (List.mem_range.mp hj)) hi hk hqc hqm huniq
    have hlen1 : (crcLoop off wq (List.range i) rq).1.length = rq.length :=
      crcLoop_length off wq _ rq
    have htk : ((crcLoop off wq (List.range i) rq).1.take i)[k]? =
        some (some q) := by
      rw [List.getElem?_take, if_pos hki]
      exact h1k
    have hfw : findMatchIdx (dramMatches off r.address)
        ((crcLoop off wq (List.range i) rq).1.take i) = some k := by
      refine findMatchIdx_eq_some_of htk ?_ ?_
      · rw [dramMatches_some]
        simp [hqm]
      · intro m b hm hb
        have hb' : (crcLoop off wq (List.range i) rq).1[m]? = some b := by
          rw [List.getElem?_take, if_pos (by omega : m < i)] at hb
          exact hb
        have := h1u m (by omega) (by omega)
        rw [getD_of_getElem? hb'] at this
        exact this
    have hmstep := processRead_merge_fwd (getD_of_getElem? h1i) hfc
      (wqFindMatch_eq_none hnw) hfw (getD_of_getElem? h1k)
    rw [hmstep]
    have h2i : (((crcLoop off wq (List.range i) rq).1.set k
        (some (mergeIntoReq q r))).set i none)[i]? = some none := by
      rw [List.getElem?_set_eq_of_lt]
      rw [List.length_set]
      omega
    have h2k : (((crcLoop off wq (List.range i) rq).1.set k
        (some (mergeIntoReq q r))).set i none)[k]? =
        some (some (mergeIntoReq q r)) := by
      rw [List.getElem?_set_ne hik, List.getElem?_set_eq_of_lt]
      omega
    refine ⟨crcLoop_preserves_cleared h2i, ?_⟩
    refine crcLoop_phase3 (A := r.address) (v := mergeIntoReq q r)
      (fun j hj => ?_) h2i h2k hqm (fun m hmi' hmk' => ?_)
    · obtain ⟨x, _, rfl⟩ := List.mem_map.mp hj
      constructor <;> omega
    · rw [getD_set_ne (fun he => hmi' he.symm), getD_set_ne (fun he => hmk' he.symm)]
      exact h1u m hmi' hmk'

/-- First of two same-block, not-yet-checked read-queue entries. -/
def rqFirstDup : DramReq :=
  { pf_metadata := 0, address := 0x40, v_address := 0x40, data := 1
    event_cycle := 0, forward_checked := false, scheduled := false
    instr_depend_on_me := [1], to_return := [10] }

/-- Second of two same-block, not-yet-checked read-queue entries. -/
def rqSecondDup : DramReq :=
  { rqFirstDup with data := 2, instr_depend_on_me := [2], to_return := [20] }

/-- **C5, counterexample to the claim as stated.** With two matching RQ
entries that are both not yet forward-checked (as happens when both arrive
before the same collision pass) and no WQ match, the claim predicts the
newer entry (index 1) is cleared and merged into the older (index 0); the
code does the opposite: the older entry's slot is cleared and its
dependents are merged into the newer entry, which survives. -/
theorem dram_check_read_collision_cex :
    (check_read_collision 6 [] [some rqFirstDup, some rqSecondDup]).1[1]? ≠
      some none ∧
    (check_read_collision 6 [] [some rqFirstDup, some rqSecondDup]).1[0]? =
      some none := by
  decide

/-- A write-queue entry holding data for block `0x40`. -/
def wqSampleEntry : DramReq :=
  { pf_metadata := 0, address := 0x40, v_address := 0, data := 77
    event_cycle := 0, forward_checked := false, scheduled := false
    instr_depend_on_me := [], to_return := [] }

/-- A not-yet-checked read to block `0x40`. -/
def rqSampleEntry : DramReq :=
  { pf_metadata := 0, address := 0x40, v_address := 0x40, data := 0
    event_cycle := 0, forward_checked := false, scheduled := false
    instr_depend_on_me := [3], to_return := [9] }

/-- An already-checked read to block `0x80`. -/
def rqOldChecked : DramReq :=
  { pf_metadata := 0, address := 0x80, v_address := 0x80, data := 0
    event_cycle := 0, forward_checked := true, scheduled := false
    instr_depend_on_me := [6], to_return := [5] }

/-- A newer, not-yet-checked read to block `0x80`. -/
def rqNewUnchecked : DramReq :=
  { rqOldChecked with forward_checked := false
                      instr_depend_on_me := [8], to_return := [7] }

theorem dram_check_read_collision_witness :
    ((check_read_collision 6 [some wqSampleEntry] [some rqSampleEntry]).1[0]? =
       some none ∧
     ∃ w', wqFindMatch 6 rqSampleEntry.address [some wqSampleEntry] = some w' ∧
       (rqSampleEntry.to_return,
        ({ address := rqSampleEntry.address, v_address := rqSampleEntry.v_address
           data := w'.data, pf_metadata := rqSampleEntry.pf_metadata
           instr_depend_on_me := rqSampleEntry.instr_depend_on_me } :
          CacheResponse)) ∈
         (check_read_collision 6 [some wqSampleEntry] [some rqSampleEntry]).2) ∧
    ((check_read_collision 6 [] [some rqOldChecked, some rqNewUnchecked]).1[1]? =
       some none ∧
     (check_read_collision 6 [] [some rqOldChecked, some rqNewUnchecked]).1[0]? =
       some (some (mergeIntoReq rqOldChecked rqNewUnchecked))) :=
  ⟨(dram_check_read_collision 6 [some wqSampleEntry] [some rqSampleEntry]).1
     0 rqSampleEntry wqSampleEntry rfl rfl (by decide) (by decide),
   (dram_check_read_collision 6 [] [some rqOldChecked, some rqNewUnchecked]).2
     1 0 rqNewUnchecked rqOldChecked rfl rfl (by simp) (by decide) rfl rfl
     (by decide)
     (by
       intro m hm1 hm0
       have hge : 2 ≤ m := by omega
       have hnone : ([some rqOldChecked, some rqNewUnchecked] :
           List (Option DramReq)).getD m none = none := by
         rw [List.getD_eq_getElem?_getD, List.getElem?_eq_none (by simpa using hge)]
         rfl
       rw [hnone]
       rfl)⟩

end ChampSim
